import Mathlib

/-!
Verification of the LMU-Baseball extract-load pipeline
(`etl/google_sheets_extract_load_raw.py` and `etl/utilis.py`).

The Python source is shallowly embedded: pandas data frames become a
`Frame` (an ordered column list plus rows of `Value`s, where the pandas
missing-value marker NaN is the distinguished constructor `Value.null`),
Python string operations are re-implemented over `List Char`
(`pyStrip`, `splitAll`, ...), the SHA-256 digest used by
`compute_row_hash` is implemented in full over `Nat` bytes, and the
orchestrator `main` becomes the pure function `runMain` taking the
environment-derived configuration and the results of the three
network-fetch strategies as explicit inputs.  Fallible Python code
(raised exceptions) is embedded with `Option`/`Except`.  Numeric values
are modelled as integers: the claims under verification only exercise
integer-valued cells, and fractional literals are out of scope.
-/

/-- A pandas cell value: the missing-value marker NaN (`null`), a string,
or a numeric value (modelled as an integer). -/
inductive Value where
  | null : Value
  | str : String → Value
  | num : Int → Value
deriving DecidableEq, Repr

/-- Embedding of `pd.isna` on a single cell: true exactly on the
missing-value marker. -/
def isna : Value → Bool
  | .null => true
  | _ => false

/-- Embedding of Python `str()` on a cell value (only ever applied to
non-null values by the hashing code). -/
def pyStr : Value → String
  | .null => "nan"
  | .str s => s
  | .num n => toString n

/-- The ASCII whitespace characters stripped by Python `str.strip()`. -/
def pyWs (c : Char) : Bool :=
  c = ' ' ∨ c = '\t' ∨ c = '\n' ∨ c = '\r' ∨ c = '\x0b' ∨ c = '\x0c'

/-- Python `str.strip()` over a character list: drop whitespace from both
ends. -/
def pyStrip (l : List Char) : List Char :=
  ((l.dropWhile pyWs).reverse.dropWhile pyWs).reverse

/-- Python `str.strip()` on a `String`. -/
def pyStripStr (s : String) : String :=
  ⟨pyStrip s.data⟩

/-- Locate the first occurrence of `sep` in `l`: returns the part before
it and the part after it, or `none` when `sep` does not occur.
(For nonempty `sep` this is the scan Python `str.split` performs.) -/
def splitFirst? (sep : List Char) : List Char → Option (List Char × List Char)
  | [] => none
  | c :: rest =>
    if sep.isPrefixOf (c :: rest) then some ([], (c :: rest).drop sep.length)
    else (splitFirst? sep rest).map (fun p => (c :: p.1, p.2))

/-- Fuel-driven worker for `splitAll`; the fuel only bounds recursion
depth and `l.length + 1` is always sufficient for nonempty `sep`. -/
def splitAllAux (sep : List Char) : Nat → List Char → List (List Char)
  | 0, l => [l]
  | fuel + 1, l =>
    match splitFirst? sep l with
    | none => [l]
    | some p => p.1 :: splitAllAux sep fuel p.2

/-- Embedding of Python `str.split(sep)` for nonempty `sep`: split at
every occurrence of `sep`. -/
def splitAll (sep l : List Char) : List (List Char) :=
  splitAllAux sep (l.length + 1) l

/-- Python `s.split(sep)` on `String`s. -/
def pySplit (s sep : String) : List String :=
  (splitAll sep.data s.data).map (fun l => ⟨l⟩)

/-- Embedding of Python's substring test `needle in hay`. -/
def containsStr (hay needle : String) : Bool :=
  (splitFirst? needle.data hay.data).isSome

/-- An in-memory tabular batch (a pandas `DataFrame`): an ordered list of
column names and the rows, each row listing its cells in column order. -/
structure Frame where
  cols : List String
  rows : List (List Value)
deriving DecidableEq, Repr

/-- Is `c` an ASCII decimal digit? -/
def isDigitChar (c : Char) : Bool :=
  48 ≤ c.toNat ∧ c.toNat ≤ 57

/-- Parse a nonempty all-digit character list as a natural number. -/
def parseDigits? (l : List Char) : Option Nat :=
  if l ≠ [] ∧ l.all isDigitChar then
    some (l.foldl (fun a c => 10 * a + (c.toNat - 48)) 0)
  else none

/-- The integer fragment of Python numeric parsing (`int(s)`): optional
sign followed by decimal digits, surrounding whitespace ignored. -/
def parseNumeric? (s : String) : Option Int :=
  match pyStrip s.data with
  | '-' :: rest => (parseDigits? rest).map (fun n => -(n : Int))
  | '+' :: rest => (parseDigits? rest).map (fun n => (n : Int))
  | l => (parseDigits? l).map (fun n => (n : Int))

/-- Numeric coercion of a single cell, as `errors="coerce"` behaves. -/
def toNumericCoerce : Value → Value
  | .null => .null
  | .num n => .num n
  | .str s =>
    match parseNumeric? s with
    | some n => .num n
    | none => .null

/-- Apply the numeric coercion of column `name` to one row: every cell
whose (position-matched) column name equals `name` is coerced, all other
cells are untouched.  Embeds the column assignment
`df[name] = pd.to_numeric(df[name], errors="coerce")`. -/
def coerceRow (name : String) : List String → List Value → List Value
  | _, [] => []
  | [], r => r
  | c :: cs, v :: vs =>
    (if c = name then toNumericCoerce v else v) :: coerceRow name cs vs

/-- Embedding of the guarded column coercion
`if name in df.columns: df[name] = pd.to_numeric(df[name], errors="coerce")`. -/
def coerceCol (cols : List String) (name : String) (rows : List (List Value)) :
    List (List Value) :=
  if name ∈ cols then rows.map (coerceRow name cols) else rows

/-- Embedding of `coerce_and_align` (the Row Normalizer): strip
whitespace from every column name, then coerce the `Year` column and
then the `Week` column (when present) to numeric. -/
def coerce_and_align (f : Frame) : Frame :=
  let cs := f.cols.map pyStripStr
  { cols := cs, rows := coerceCol cs "Week" (coerceCol cs "Year" f.rows) }

/-! ### SHA-256 (the digest used by `compute_row_hash`)

A complete executable implementation over `Nat` bytes/words, with all
32-bit arithmetic taken modulo `2 ^ 32`. -/

/-- `2 ^ 32`, the modulus of 32-bit words. -/
def M32 : Nat := 4294967296

/-- 32-bit modular addition. -/
def add32 (a b : Nat) : Nat := (a + b) % M32

/-- Rotate a 32-bit word right by `k` bits. -/
def rotr (k x : Nat) : Nat := ((x >>> k) ||| (x <<< (32 - k))) % M32

/-- SHA-256 `Ch(x,y,z)`. -/
def shaCh (x y z : Nat) : Nat := (x &&& y) ^^^ ((x ^^^ 4294967295) &&& z)

/-- SHA-256 `Maj(x,y,z)`. -/
def shaMaj (x y z : Nat) : Nat := (x &&& y) ^^^ (x &&& z) ^^^ (y &&& z)

/-- SHA-256 `Σ₀`. -/
def bigSigma0 (x : Nat) : Nat := rotr 2 x ^^^ rotr 13 x ^^^ rotr 22 x

/-- SHA-256 `Σ₁`. -/
def bigSigma1 (x : Nat) : Nat := rotr 6 x ^^^ rotr 11 x ^^^ rotr 25 x

/-- SHA-256 `σ₀`. -/
def smallSigma0 (x : Nat) : Nat := rotr 7 x ^^^ rotr 18 x ^^^ (x >>> 3)

/-- SHA-256 `σ₁`. -/
def smallSigma1 (x : Nat) : Nat := rotr 17 x ^^^ rotr 19 x ^^^ (x >>> 10)

/-- The 64 SHA-256 round constants. -/
def K64 : List Nat :=
  [1116352408, 1899447441, 3049323471, 3921009573, 961987163, 1508970993,
   2453635748, 2870763221, 3624381080, 310598401, 607225278, 1426881987,
   1925078388, 2162078206, 2614888103, 3248222580, 3835390401, 4022224774,
   264347078, 604807628, 770255983, 1249150122, 1555081692, 1996064986,
   2554220882, 2821834349, 2952996808, 3210313671, 3336571891, 3584528711,
   113926993, 338241895, 666307205, 773529912, 1294757372, 1396182291,
   1695183700, 1986661051, 2177026350, 2456956037, 2730485921, 2820302411,
   3259730800, 3345764771, 3516065817, 3600352804, 4094571909, 275423344,
   430227734, 506948616, 659060556, 883997877, 958139571, 1322822218,
   1537002063, 1747873779, 1955562222, 2024104815, 2227730452, 2361852424,
   2428436474, 2756734187, 3204031479, 3329325298]

/-- The SHA-256 initial hash state. -/
def H0 : List Nat :=
  [1779033703, 3144134277, 1013904242, 2773480762, 1359893119, 2600822924,
   528734635, 1541459225]

/-- The `k` bytes of `n` in big-endian order. -/
def bigEndianBytes (k n : Nat) : List Nat :=
  (List.range k).map (fun i => (n >>> (8 * (k - 1 - i))) % 256)

/-- SHA-256 message padding: append `0x80`, zero bytes up to 56 mod 64,
then the 8-byte big-endian bit length. -/
def sha256Pad (msg : List Nat) : List Nat :=
  msg ++ [128] ++ List.replicate ((119 - msg.length % 64) % 64) 0 ++
    bigEndianBytes 8 (8 * msg.length)

/-- Group a padded message into 64-byte chunks (fuel-driven; the fuel
`l.length` is always sufficient since each step consumes 64 bytes). -/
def chunks64Aux : Nat → List Nat → List (List Nat)
  | _, [] => []
  | 0, l => [l]
  | fuel + 1, l => l.take 64 :: chunks64Aux fuel (l.drop 64)

/-- Group a byte list into 64-byte chunks. -/
def chunks64 (l : List Nat) : List (List Nat) :=
  chunks64Aux l.length l

/-- Combine bytes into big-endian 32-bit words. -/
def bytesToWords : List Nat → List Nat
  | a :: b :: c :: d :: rest =>
    (a * 16777216 + b * 65536 + c * 256 + d) :: bytesToWords rest
  | _ => []

/-- Extend the 16 chunk words to the 64-entry message schedule. -/
def extendSchedule (w : List Nat) : List Nat :=
  (List.range 48).foldl
    (fun acc _ =>
      let n := acc.length
      acc ++ [add32
        (add32 (smallSigma1 (acc.getD (n - 2) 0)) (acc.getD (n - 7) 0))
        (add32 (smallSigma0 (acc.getD (n - 15) 0)) (acc.getD (n - 16) 0))])
    w

/-- One SHA-256 round: update the 8-word working state with a schedule
word and its round constant. -/
def compressWord (st : List Nat) (wk : Nat × Nat) : List Nat :=
  let a := st.getD 0 0
  let b := st.getD 1 0
  let c := st.getD 2 0
  let d := st.getD 3 0
  let e := st.getD 4 0
  let f := st.getD 5 0
  let g := st.getD 6 0
  let h := st.getD 7 0
  let t1 := add32 h (add32 (bigSigma1 e)
    (add32 (shaCh e f g) (add32 wk.2 wk.1)))
  let t2 := add32 (bigSigma0 a) (shaMaj a b c)
  [add32 t1 t2, a, b, c, add32 d t1, e, f, g]

/-- Process one 64-byte chunk into the running hash state. -/
def processChunk (h : List Nat) (chunk : List Nat) : List Nat :=
  let w := extendSchedule (bytesToWords chunk)
  let st := (w.zip K64).foldl compressWord h
  (h.zip st).map (fun p => add32 p.1 p.2)

/-- SHA-256 of a byte list, as a 32-byte digest. -/
def sha256Bytes (msg : List Nat) : List Nat :=
  let final := (chunks64 (sha256Pad msg)).foldl processChunk H0
  final.foldr (fun w acc => bigEndianBytes 4 w ++ acc) []

/-- A lowercase hexadecimal digit. -/
def hexDigit (n : Nat) : Char :=
  if n < 10 then Char.ofNat (48 + n) else Char.ofNat (87 + n)

/-- Render a byte list as a lowercase hexadecimal string
(Python's `hexdigest()`). -/
def bytesToHex (bs : List Nat) : String :=
  ⟨bs.foldr (fun b acc => hexDigit (b / 16) :: hexDigit (b % 16) :: acc) []⟩

/-- UTF-8 encoding of one character (code point) as bytes. -/
def utf8Encode (c : Char) : List Nat :=
  let n := c.toNat
  if n < 128 then [n]
  else if n < 2048 then [192 + n / 64, 128 + n % 64]
  else if n < 65536 then
    [224 + n / 4096, 128 + n / 64 % 64, 128 + n % 64]
  else
    [240 + n / 262144, 128 + n / 4096 % 64, 128 + n / 64 % 64, 128 + n % 64]

/-- Python `s.encode("utf-8")`: the UTF-8 bytes of a string. -/
def utf8Bytes (s : String) : List Nat :=
  s.data.foldr (fun c acc => utf8Encode c ++ acc) []

/-- `hashlib.sha256(s.encode("utf-8")).hexdigest()`: the lowercase-hex
SHA-256 digest of the UTF-8 encoding of `s`. -/
def sha256hex (s : String) : String :=
  bytesToHex (sha256Bytes (utf8Bytes s))

/-! ### The Content Hasher (`etl/utilis.py`) -/

/-- Map `f` over a list, failing if `f` fails anywhere — the effect of a
Python exception escaping a per-element loop. -/
def optMap (f : α → Option β) : List α → Option (List β)
  | [] => some []
  | x :: xs =>
    match f x, optMap f xs with
    | some y, some ys => some (y :: ys)
    | _, _ => none

/-- Embedding of `row[c]` on a pandas row labelled by `cs`: the cell at
the column's position, or failure (`KeyError`) when `c` is not a column. -/
def getCell (cs : List String) (r : List Value) (c : String) : Option Value :=
  if c ∈ cs then r.get? (cs.findIdx (fun x => x == c)) else none

/-- Total version of `getCell` used to state theorems: the cell of `r`
at column `c` of `cs`, defaulting to null. -/
def valueAt (cs : List String) (r : List Value) (c : String) : Value :=
  r.getD (cs.findIdx (fun x => x == c)) Value.null

/-- The string joined and hashed by `compute_row_hash` for one row:
each selected column's value rendered by `str()` (empty string for
null), joined by `"||"` in the given column order. -/
def hashJoin (vs : List Value) : String :=
  String.intercalate "||" (vs.map (fun v => if isna v then "" else pyStr v))

/-- Per-row body of `compute_row_hash` (`_hash_row`): extract the
selected columns (a missing column raises, hence `Option`), join, and
digest. -/
def rowHash (cs : List String) (hashCols : List String) (r : List Value) :
    Option String :=
  (optMap (getCell cs r) hashCols).map (fun vs => sha256hex (hashJoin vs))

/-- Embedding of `compute_row_hash(df, cols)`: the per-row fingerprint
series, or failure when any selected column is missing. -/
def compute_row_hash (df : Frame) (cols : List String) : Option (List String) :=
  optMap (rowHash df.cols cols) df.rows

/-- Modelled from the spec: "the lowercase hexadecimal SHA-256 digest of
the UTF-8 encoding of the record's included-column values rendered as
strings (empty string for null) joined by the separator `\x7c\x7c`".
Rendering is by cases on the value constructor, exactly as the spec
words it. -/
def specFingerprint (vs : List Value) : String :=
  bytesToHex (sha256Bytes (utf8Bytes (String.intercalate "||"
    (vs.map (fun v =>
      match v with
      | .null => ""
      | .str s => s
      | .num n => toString n)))))

/-! ### Sink Writer (file mode) -/

/-- Double every embedded CSV quote character. -/
def csvEscapeChars : List Char → List Char
  | [] => []
  | c :: rest =>
    if c = '"' then '"' :: '"' :: csvEscapeChars rest
    else c :: csvEscapeChars rest

/-- Minimal CSV quoting (pandas `to_csv` default): quote a field exactly
when it contains a delimiter, quote, or line break. -/
def csvField (s : String) : String :=
  if s.data.any (fun c => c = ',' ∨ c = '"' ∨ c = '\n' ∨ c = '\r') then
    ⟨'"' :: (csvEscapeChars s.data ++ ['"'])⟩
  else s

/-- Render one cell for `to_csv`: the missing-value marker becomes the
empty field, strings are minimally quoted, numbers print plainly. -/
def csvRender : Value → String
  | .null => ""
  | .str s => csvField s
  | .num n => toString n

/-- Embedding of `df.to_csv(path, index=False)` content: one header
record in column order, then one record per row (each list entry is one
CSV record). -/
def toCsv (f : Frame) : List String :=
  String.intercalate "," (f.cols.map csvField) ::
    f.rows.map (fun r => String.intercalate "," (r.map csvRender))

/-- Embedding of `write_extract`: the output path
`data/raw/<timestamp>_cauldron_backend.csv` (the directory is created if
absent) and the CSV records written there.  The UTC timestamp rendered
by `strftime("%Y-%m-%d_%H%M%S")` enters as the explicit input `ts`. -/
def write_extract (ts : String) (df : Frame) : String × List String :=
  ("data/raw/" ++ (ts ++ "_cauldron_backend.csv"), toCsv df)

/-! ### Source identifier normalization -/

/-- Embedding of `normalize_sheet_id`: strip the input; a value starting
with `http` must contain the `/d/` marker — the segment following it up
to the next slash is the identifier, and a marker-less URL raises
`ValueError` (embedded as `Except.error`); any non-URL input is returned
stripped. -/
def normalize_sheet_id (val : String) : Except String String :=
  let v := pyStrip val.data
  if "http".data.isPrefixOf v then
    let parts := splitAll "/d/".data v
    if 2 ≤ parts.length then
      Except.ok ⟨(splitAll "/".data (parts.getD 1 [])).getD 0 []⟩
    else
      Except.error "Provided URL does not look like a Google Sheets URL with /d/<id>/"
  else Except.ok ⟨v⟩

/-! ### Pipeline Orchestrator (`main`) -/

/-- The environment-derived configuration read at module load:
`os.getenv` yields `none` for an unset variable and `some s` (possibly
empty) for a set one; `GSHEET_TAB_NAME`, `RAW_TABLE` and
`GOOGLE_APPLICATION_CREDENTIALS_JSON` carry defaults and are plain
strings. -/
structure Config where
  gsheetId : Option String
  gsheetTab : String
  gsheetGid : Option String
  rawTable : String
  mysqlHost : Option String
  mysqlUser : Option String
  mysqlPassword : Option String
  mysqlDb : Option String
  googleCreds : String
deriving DecidableEq, Repr

/-- Python truthiness test `not x` for an optional environment string:
true exactly on an unset variable or an empty value. -/
def falsy : Option String → Bool
  | none => true
  | some s => s = ""

/-- An error escaping a fetch strategy, as `main` can observe it:
whether it is a `gspread` `APIError`, and its rendered message. -/
structure FetchErr where
  isAPIError : Bool
  msg : String
deriving DecidableEq, Repr

/-- The SQLAlchemy connection URL built at module load by `URL.create`
(lines 23–30): the only place the password is consumed. -/
structure DbUrl where
  drivername : String
  username : Option String
  password : Option String
  host : Option String
  port : Nat
  database : Option String
deriving DecidableEq, Repr

/-- `DATABASE_URL` as built from the environment. -/
def databaseUrl (cfg : Config) : DbUrl :=
  ⟨"mysql+pymysql", cfg.mysqlUser, cfg.mysqlPassword, cfg.mysqlHost, 3306,
    cfg.mysqlDb⟩

/-- The observable outcome of one `main()` run. -/
inductive RunResult where
  | configError (code : Nat)
  | sheetIdError (msg : String)
  | fetchFailure (e : FetchErr)
  | emptyReturn
  | fileSaved (path : String) (csv : List String) (df : Frame)
  | dbLoaded (table : String) (df : Frame)
deriving DecidableEq, Repr

/-- Process exit status of an outcome: `sys.exit(2)` for missing
configuration, the interpreter's default `1` for an uncaught exception,
`0` for every normal return. -/
def exitStatus : RunResult → Nat
  | .configError code => code
  | .sheetIdError _ => 1
  | .fetchFailure _ => 1
  | _ => 0

/-- The batch handed to the Sink Writer, when a sink was reached. -/
def sinkFrame? : RunResult → Option Frame
  | .fileSaved _ _ df => some df
  | .dbLoaded _ df => some df
  | _ => none

/-- Did the run take the local-file (dry run) sink? -/
def isFileMode : RunResult → Bool
  | .fileSaved _ _ _ => true
  | _ => false

/-- The extract phase of `main` (lines 176–190): with credentials
present, try the native `gspread` fetch and fall back to the Drive
binary download exactly when the failure is an `APIError` whose message
contains `"not supported for this document"`; without credentials use
the public CSV export.  The three strategies' outcomes enter as
explicit inputs. -/
def fetchPhase (cfg : Config) (gspreadFetch : Except FetchErr Frame)
    (driveFetch csvFetch : Frame) : Except FetchErr Frame :=
  if cfg.googleCreds = "" then Except.ok csvFetch
  else
    match gspreadFetch with
    | .ok df => Except.ok df
    | .error e =>
      if e.isAPIError && containsStr e.msg "not supported for this document" then
        Except.ok driveFetch
      else Except.error e

/-- Embedding of `main()`: validate the source identifier, fetch,
short-circuit on an empty batch, normalize, then write to the database
when host, user, and database name are all truthy, else save a local
extract file. -/
def runMain (cfg : Config) (ts : String) (gspreadFetch : Except FetchErr Frame)
    (driveFetch csvFetch : Frame) : RunResult :=
  if falsy cfg.gsheetId then .configError 2
  else
    match normalize_sheet_id (cfg.gsheetId.getD "") with
    | .error m => .sheetIdError m
    | .ok _sid =>
      match fetchPhase cfg gspreadFetch driveFetch csvFetch with
      | .error e => .fetchFailure e
      | .ok df0 =>
        if df0.rows.isEmpty || df0.cols.isEmpty then .emptyReturn
        else
          let df := coerce_and_align df0
          if falsy cfg.mysqlHost || falsy cfg.mysqlUser || falsy cfg.mysqlDb then
            let out := write_extract ts df
            .fileSaved out.1 out.2 df
          else .dbLoaded cfg.rawTable df

deriving instance DecidableEq for Except

/-! ### Concrete run inputs used by witnesses and counterexamples -/

/-- The browser URL of the spec's worked example. -/
def exampleUrl : String :=
  "https://docs.google.com/spreadsheets/d/ABC123/edit#gid=0"

/-- A configuration with a raw sheet id, no credentials (public CSV
path), and no database settings (file mode). -/
def cfg1 : Config :=
  ⟨some "SHEET1", "Cauldron_Backend", none, "raw_cauldron_scoreboard",
    none, none, none, none, ""⟩

/-- Like `cfg1` but with service-account credentials present
(authenticated `gspread` path). -/
def cfg8 : Config :=
  ⟨some "SHEET1", "Cauldron_Backend", none, "raw_cauldron_scoreboard",
    none, none, none, none, "creds.json"⟩

/-- A configuration whose `MYSQL_HOST` is set to the empty string while
user and database name are set non-empty and the password is unset. -/
def cfg10 : Config :=
  ⟨some "SHEET1", "Cauldron_Backend", none, "raw_cauldron_scoreboard",
    some "", some "etl_user", none, some "lmu_baseball", ""⟩

/-- A run timestamp in the `strftime("%Y-%m-%d_%H%M%S")` shape. -/
def ts1 : String := "2026-10-12_000000"

/-- A one-record source batch. -/
def b1 : Frame := ⟨["Name", "Year"], [[.str "A", .str "2023"]]⟩

/-- A zero-record source batch. -/
def b0 : Frame := ⟨["Name", "Year"], []⟩

/-- A two-record normalized batch with identical rows, for the hashing
witness. -/
def dfHash : Frame :=
  ⟨["Name", "Year"], [[.str "A", .num 2023], [.str "A", .num 2023]]⟩

/-- The digest `sha256("A||2023")` rendered in lowercase hex. -/
def digest1 : String :=
  "b5122af7c6bd577ccaaf7344c27597b413648abc3aa9635e1a1c3fc6ab44db57"

/-- A `gspread` `APIError` whose message marks a non-native document. -/
def errUnsupported : FetchErr :=
  ⟨true, "APIError: [400]: This operation is not supported for this document"⟩

/-- A `gspread` `APIError` for a missing resource. -/
def errNotFound : FetchErr :=
  ⟨true, "APIError: [404]: Requested entity was not found."⟩

/-! ### Helper lemmas -/

theorem optMap_eq_some {f : α → Option β} {g : α → β} :
    ∀ {l : List α}, (∀ x ∈ l, f x = some (g x)) → optMap f l = some (l.map g)
  | [], _ => rfl
  | x :: xs, h => by
    have hx : f x = some (g x) := h x (List.mem_cons_self x xs)
    have hxs : optMap f xs = some (xs.map g) :=
      optMap_eq_some (fun y hy => h y (List.mem_cons_of_mem x hy))
    simp [optMap, hx, hxs]

theorem getCell_eq_valueAt {cs : List String} {r : List Value} {c : String}
    (hc : c ∈ cs) (hlen : cs.length ≤ r.length) :
    getCell cs r c = some (valueAt cs r c) := by
  have hidx : cs.findIdx (fun x => x == c) < cs.length :=
    List.findIdx_lt_length_of_exists ⟨c, hc, by simp⟩
  have hr : cs.findIdx (fun x => x == c) < r.length := lt_of_lt_of_le hidx hlen
  simp only [getCell, valueAt, if_pos hc, List.get?_eq_get hr]
  simp [List.getD_eq_getElem?_getD, List.getElem?_eq_getElem hr]

theorem coerceRow_length (name : String) :
    ∀ (cs : List String) (r : List Value), (coerceRow name cs r).length = r.length
  | _, [] => by cases ‹List String› <;> rfl
  | [], _ :: _ => rfl
  | _ :: cs, _ :: vs => by simp [coerceRow, coerceRow_length name cs vs]

theorem coerceRow_getD {name : String} (hname : name ≠ "") :
    ∀ (cs : List String) (r : List Value) (j : Nat),
      (coerceRow name cs r).getD j Value.null =
        if j < r.length ∧ cs.getD j "" = name then
          toNumericCoerce (r.getD j Value.null)
        else r.getD j Value.null
  | cs, [], j => by
    cases cs <;> simp [coerceRow]
  | [], v :: vs, j => by
    have h0 : ¬ ("" : String) = name := fun h => hname h.symm
    simp [coerceRow, h0]
  | c :: cs, v :: vs, 0 => by
    by_cases h : c = name <;> simp [coerceRow, h]
  | c :: cs, v :: vs, j + 1 => by
    simp only [coerceRow, List.getD_cons_succ, List.length_cons,
      Nat.add_lt_add_iff_right]
    exact coerceRow_getD hname cs vs j

theorem coerceRow_of_not_mem {name : String} :
    ∀ {cs : List String} (r : List Value), name ∉ cs → coerceRow name cs r = r
  | cs, [], _ => by cases cs <;> rfl
  | [], _ :: _, _ => rfl
  | c :: cs, v :: vs, h => by
    have hc : ¬ c = name := fun hc => h (hc ▸ List.mem_cons_self c cs)
    simp [coerceRow, hc, coerceRow_of_not_mem vs (fun hm => h (List.mem_cons_of_mem c hm))]

theorem map_coerceRow_getD (name : String) (cs : List String) :
    ∀ (rows : List (List Value)) (k : Nat),
      (rows.map (coerceRow name cs)).getD k [] = coerceRow name cs (rows.getD k [])
  | [], k => by cases cs <;> simp [coerceRow]
  | r :: rows, 0 => rfl
  | r :: rows, k + 1 => by
    simp only [List.map_cons, List.getD_cons_succ]
    exact map_coerceRow_getD name cs rows k

theorem coerceCol_getD (cs : List String) (name : String)
    (rows : List (List Value)) (k : Nat) :
    (coerceCol cs name rows).getD k [] = coerceRow name cs (rows.getD k []) := by
  unfold coerceCol
  by_cases h : name ∈ cs
  · simp only [if_pos h]
    exact map_coerceRow_getD name cs rows k
  · simp only [if_neg h]
    exact (coerceRow_of_not_mem _ h).symm

theorem coerceCol_length (cs : List String) (name : String)
    (rows : List (List Value)) : (coerceCol cs name rows).length = rows.length := by
  unfold coerceCol
  by_cases h : name ∈ cs <;> simp [h]

/-- The master cell equation of the Row Normalizer: position `j` of row
`k` is numerically coerced exactly when its (trimmed) column is `Year`
or `Week`, and untouched otherwise. -/
theorem coerce_cell (f : Frame) (k j : Nat) :
    ((coerce_and_align f).rows.getD k []).getD j Value.null =
      if j < (f.rows.getD k []).length ∧
          ((f.cols.map pyStripStr).getD j "" = "Year" ∨
            (f.cols.map pyStripStr).getD j "" = "Week") then
        toNumericCoerce ((f.rows.getD k []).getD j Value.null)
      else (f.rows.getD k []).getD j Value.null := by
  have hY : ("Year" : String) ≠ "" := by decide
  have hW : ("Week" : String) ≠ "" := by decide
  have hYW : ("Year" : String) ≠ "Week" := by decide
  set cs := f.cols.map pyStripStr with hcs
  set r := f.rows.getD k [] with hrdef
  have h1 : (coerce_and_align f).rows.getD k [] =
      coerceRow "Week" cs (coerceRow "Year" cs r) := by
    show (coerceCol cs "Week" (coerceCol cs "Year" f.rows)).getD k [] = _
    rw [coerceCol_getD, coerceCol_getD]
  rw [h1, coerceRow_getD hW, coerceRow_length, coerceRow_getD hY]
  by_cases hjr : j < r.length
  · by_cases hYj : cs.getD j "" = "Year"
    · have hWj : ¬ (j < r.length ∧ cs.getD j "" = "Week") := by
        rintro ⟨-, h⟩
        exact hYW (hYj.symm.trans h)
      rw [if_neg hWj, if_pos ⟨hjr, hYj⟩, if_pos ⟨hjr, Or.inl hYj⟩]
    · by_cases hWj : cs.getD j "" = "Week"
      · rw [if_pos ⟨hjr, hWj⟩, if_neg (fun h => hYj h.2),
          if_pos ⟨hjr, Or.inr hWj⟩]
      · rw [if_neg (fun h => hWj h.2), if_neg (fun h => hYj h.2),
          if_neg (fun h => h.2.elim hYj hWj)]
  · rw [if_neg (fun h => hjr h.1), if_neg (fun h => hjr h.1),
      if_neg (fun h => hjr h.1)]

theorem coerce_and_align_cols (f : Frame) :
    (coerce_and_align f).cols = f.cols.map pyStripStr := rfl

theorem coerce_and_align_rows_length (f : Frame) :
    (coerce_and_align f).rows.length = f.rows.length := by
  show (coerceCol _ "Week" (coerceCol _ "Year" f.rows)).length = _
  rw [coerceCol_length, coerceCol_length]

theorem splitFirst?_ne_nil {sep l : List Char} {p : List Char × List Char}
    (h : splitFirst? sep l = some p) : l ≠ [] := by
  intro hl
  subst hl
  simp [splitFirst?] at h

theorem splitFirst?_decomp {sep : List Char} :
    ∀ {l : List Char} {p : List Char × List Char},
      splitFirst? sep l = some p → l = p.1 ++ (sep ++ p.2)
  | [], p => by simp [splitFirst?]
  | c :: rest, p => by
    unfold splitFirst?
    by_cases h : sep.isPrefixOf (c :: rest)
    · rw [if_pos h]
      intro hp
      obtain ⟨t, ht⟩ := List.isPrefixOf_iff_prefix.mp h
      cases hp
      simp only [List.nil_append]
      rw [← ht, List.drop_left]
    · rw [if_neg h]
      intro hp
      cases hq : splitFirst? sep rest with
      | none => rw [hq] at hp; simp at hp
      | some q =>
        rw [hq] at hp
        simp only [Option.map_some', Option.some.injEq] at hp
        cases hp
        have := splitFirst?_decomp hq
        simp [this]

theorem splitFirst?_first {sep : List Char} :
    ∀ {l : List Char} {p : List Char × List Char},
      splitFirst? sep l = some p → splitFirst? sep p.1 = none
  | [], p => by simp [splitFirst?]
  | c :: rest, p => by
    unfold splitFirst?
    by_cases h : sep.isPrefixOf (c :: rest)
    · rw [if_pos h]
      intro hp
      cases hp
      rfl
    · rw [if_neg h]
      intro hp
      cases hq : splitFirst? sep rest with
      | none => rw [hq] at hp; simp at hp
      | some q =>
        rw [hq] at hp
        simp only [Option.map_some', Option.some.injEq] at hp
        cases hp
        show splitFirst? sep (c :: q.1) = none
        unfold splitFirst?
        have hnp : ¬ sep.isPrefixOf (c :: q.1) = true := by
          intro hpre
          apply h
          apply List.isPrefixOf_iff_prefix.mpr
          apply (List.isPrefixOf_iff_prefix.mp hpre).trans
          exact ⟨sep ++ q.2, by simp [← splitFirst?_decomp hq]⟩
        rw [if_neg hnp, splitFirst?_first hq]
        rfl

theorem splitAllAux_ne_nil (sep : List Char) (fuel : Nat) (l : List Char) :
    splitAllAux sep fuel l ≠ [] := by
  cases fuel with
  | zero => simp [splitAllAux]
  | succ f =>
    unfold splitAllAux
    cases h : splitFirst? sep l <;> simp

theorem splitAllAux_head (sep : List Char) (f : Nat) (l : List Char) :
    (splitAllAux sep (f + 1) l).getD 0 [] =
      match splitFirst? sep l with
      | none => l
      | some p => p.1 := by
  unfold splitAllAux
  cases h : splitFirst? sep l <;> simp

theorem splitFirst?_single_none (c : Char) :
    ∀ {m : List Char}, splitFirst? [c] m = none →
      m.takeWhile (fun x => x != c) = m
  | [], _ => rfl
  | x :: rest, h => by
    unfold splitFirst? at h
    by_cases hx : ([c] : List Char).isPrefixOf (x :: rest)
    · rw [if_pos hx] at h
      simp at h
    · rw [if_neg hx] at h
      have hxc : ¬ x = c := by
        intro he
        apply hx
        subst he
        simp [List.isPrefixOf]
      cases hq : splitFirst? [c] rest with
      | none =>
        rw [List.takeWhile_cons]
        have : (x != c) = true := by simp [hxc]
        rw [if_pos this, splitFirst?_single_none c hq]
      | some q => rw [hq] at h; simp at h

theorem splitFirst?_single_head (c : Char) :
    ∀ (m : List Char),
      (match splitFirst? [c] m with
       | none => m
       | some p => p.1) = m.takeWhile (fun x => x != c)
  | [] => rfl
  | x :: rest => by
    by_cases hx : x = c
    · subst hx
      have hpre : ([x] : List Char).isPrefixOf (x :: rest) = true := by
        simp [List.isPrefixOf]
      unfold splitFirst?
      rw [if_pos hpre]
      simp [List.takeWhile_cons]
    · have hpre : ¬ ([c] : List Char).isPrefixOf (x :: rest) = true := by
        simp [List.isPrefixOf]
        intro he
        exact hx he.symm
      unfold splitFirst?
      rw [if_neg hpre]
      have ih := splitFirst?_single_head c rest
      cases hq : splitFirst? [c] rest with
      | none =>
        rw [hq] at ih
        simp only [Option.map_none']
        rw [List.takeWhile_cons]
        have : (x != c) = true := by simp [hx]
        rw [if_pos this, ← ih]
      | some q =>
        rw [hq] at ih
        simp only [Option.map_some']
        rw [List.takeWhile_cons]
        have : (x != c) = true := by simp [hx]
        rw [if_pos this, ← ih]

theorem splitAllAux_succ_none {sep l : List Char} (f : Nat)
    (h : splitFirst? sep l = none) : splitAllAux sep (f + 1) l = [l] := by
  show (match splitFirst? sep l with
    | none => [l]
    | some p => p.1 :: splitAllAux sep f p.2) = [l]
  rw [h]

theorem splitAllAux_succ_some {sep l : List Char} {p : List Char × List Char}
    (f : Nat) (h : splitFirst? sep l = some p) :
    splitAllAux sep (f + 1) l = p.1 :: splitAllAux sep f p.2 := by
  show (match splitFirst? sep l with
    | none => [l]
    | some p => p.1 :: splitAllAux sep f p.2) = _
  rw [h]

theorem takeWhile_append_stop {q : Char → Bool} {c : Char} (hc : q c = false) :
    ∀ (a r : List Char), ((a ++ c :: r).takeWhile q) = a.takeWhile q
  | [], r => by simp [List.takeWhile_cons, hc]
  | x :: a, r => by
    simp only [List.cons_append, List.takeWhile_cons]
    cases hx : q x <;> simp [takeWhile_append_stop hc a r]

theorem render_agree (v : Value) :
    (if isna v then "" else pyStr v) =
      (match v with
       | .null => ""
       | .str s => s
       | .num n => toString n) := by
  cases v <;> rfl

theorem rowHash_eq {cs cols : List String} {r : List Value}
    (hc : ∀ c ∈ cols, c ∈ cs) (hlen : cs.length ≤ r.length) :
    rowHash cs cols r = some (specFingerprint (cols.map (valueAt cs r))) := by
  have h1 : optMap (getCell cs r) cols = some (cols.map (valueAt cs r)) :=
    optMap_eq_some (fun c hcc => getCell_eq_valueAt (hc c hcc) hlen)
  simp only [rowHash, h1, Option.map_some', Option.some.injEq]
  unfold sha256hex specFingerprint hashJoin
  have hm : List.map (fun v => if isna v then "" else pyStr v)
        (List.map (valueAt cs r) cols) =
      List.map
        (fun v =>
          match v with
          | Value.null => ""
          | Value.str s => s
          | Value.num n => toString n)
        (List.map (valueAt cs r) cols) :=
    List.map_congr_left (fun v _ => render_agree v)
  rw [hm]

/-- Under the preconditions that make the sink stage reachable (valid
identifier, successful fetch, non-empty batch), `main` ends in exactly
one of the two sink writes, on the normalized batch. -/
theorem runMain_sink {cfg : Config} {ts : String} {gs : Except FetchErr Frame}
    {dr cv b : Frame} {sid : String}
    (hf : falsy cfg.gsheetId = false)
    (hn : normalize_sheet_id (cfg.gsheetId.getD "") = Except.ok sid)
    (hfe : fetchPhase cfg gs dr cv = Except.ok b)
    (hne : (b.rows.isEmpty || b.cols.isEmpty) = false) :
    runMain cfg ts gs dr cv =
      if falsy cfg.mysqlHost || falsy cfg.mysqlUser || falsy cfg.mysqlDb then
        RunResult.fileSaved (write_extract ts (coerce_and_align b)).1
          (write_extract ts (coerce_and_align b)).2 (coerce_and_align b)
      else RunResult.dbLoaded cfg.rawTable (coerce_and_align b) := by
  simp only [runMain, hf, hn, hfe, hne, Bool.false_eq_true, if_false]

/-- **C7.** For every input string, `normalize_sheet_id` returns the
segment between the `/d/` path marker and the next `/` when the
(stripped) input starts with `http` and contains `/d/` — the marker
located is the first occurrence (`splitFirst?`), the decomposition
conjuncts pin it inside the input, and the segment is everything after
it up to the next slash; it returns the whitespace-stripped input
unchanged when the input does not start with `http`; and it raises a
descriptive `ValueError` exactly when the stripped input starts with
`http` but contains no `/d/` marker. -/
theorem C7_normalize_sheet_id (val : String) :
    (¬ "http".data.isPrefixOf (pyStrip val.data) = true →
      normalize_sheet_id val = Except.ok ⟨pyStrip val.data⟩) ∧
    (∀ p : List Char × List Char,
      "http".data.isPrefixOf (pyStrip val.data) = true →
      splitFirst? "/d/".data (pyStrip val.data) = some p →
      normalize_sheet_id val =
          Except.ok ⟨p.2.takeWhile (fun x => x != '/')⟩ ∧
        pyStrip val.data = p.1 ++ ("/d/".data ++ p.2) ∧
        splitFirst? "/d/".data p.1 = none) ∧
    ("http".data.isPrefixOf (pyStrip val.data) = true →
      splitFirst? "/d/".data (pyStrip val.data) = none →
      normalize_sheet_id val = Except.error
        "Provided URL does not look like a Google Sheets URL with /d/<id>/") := by
  refine ⟨?_, ?_, ?_⟩
  · intro h
    simp only [normalize_sheet_id]
    rw [if_neg h]
  · intro p hhttp hp
    refine ⟨?_, splitFirst?_decomp hp, splitFirst?_first hp⟩
    simp only [normalize_sheet_id]
    rw [if_pos hhttp]
    have hv : pyStrip val.data ≠ [] := splitFirst?_ne_nil hp
    obtain ⟨f, hf⟩ : ∃ f, (pyStrip val.data).length = f + 1 := by
      refine ⟨(pyStrip val.data).length - 1, ?_⟩
      have h1 := List.length_pos.mpr hv
      omega
    have hparts : splitAll "/d/".data (pyStrip val.data) =
        p.1 :: splitAllAux "/d/".data (pyStrip val.data).length p.2 := by
      rw [splitAll]
      exact splitAllAux_succ_some _ hp
    have htail : splitAllAux "/d/".data (pyStrip val.data).length p.2 ≠ [] :=
      splitAllAux_ne_nil _ _ _
    have hlen : 2 ≤ (splitAll "/d/".data (pyStrip val.data)).length := by
      rw [hparts]
      exact Nat.succ_le_succ (List.length_pos.mpr htail)
    rw [if_pos hlen, hparts]
    have hget1 : (p.1 :: splitAllAux "/d/".data (pyStrip val.data).length p.2).getD 1 [] =
        (splitAllAux "/d/".data (pyStrip val.data).length p.2).getD 0 [] := rfl
    rw [hget1]
    -- reduce the head of the remaining split to the part before the
    -- next occurrence (or all of p.2 when there is none)
    have hX : (splitAllAux "/d/".data (pyStrip val.data).length p.2).getD 0 [] =
        match splitFirst? "/d/".data p.2 with
        | none => p.2
        | some q => q.1 := by
      rw [hf]
      exact splitAllAux_head _ _ _
    rw [hX]
    -- the inner `.split("/")[0]`
    have hInner : ∀ m : List Char,
        (splitAll "/".data m).getD 0 [] = m.takeWhile (fun x => x != '/') := by
      intro m
      unfold splitAll
      have hdata : ("/" : String).data = ['/'] := rfl
      rw [hdata, splitAllAux_head, splitFirst?_single_head]
    cases hsf : splitFirst? "/d/".data p.2 with
    | none =>
      simp only []
      rw [hInner p.2]
    | some q =>
      simp only []
      rw [hInner q.1]
      have hdec := splitFirst?_decomp hsf
      have hdata : ("/d/" : String).data = ['/', 'd', '/'] := rfl
      rw [hdata] at hdec
      simp only [List.cons_append, List.nil_append] at hdec
      have hsame : p.2.takeWhile (fun x => x != '/') =
          q.1.takeWhile (fun x => x != '/') := by
        rw [hdec]
        exact @takeWhile_append_stop (fun x => x != '/') '/' (by decide)
          q.1 ('d' :: '/' :: q.2)
      rw [hsame]
  · intro hhttp hnone
    simp only [normalize_sheet_id]
    rw [if_pos hhttp]
    have hparts : splitAll "/d/".data (pyStrip val.data) = [pyStrip val.data] := by
      rw [splitAll]
      exact splitAllAux_succ_none _ hnone
    rw [hparts]
    norm_num

/-- Witness for C7: on the spec's example URL the marker case of
`C7_normalize_sheet_id` applies and extracts `ABC123`; the theorem's
other two cases are exercised on a raw identifier and on a marker-less
URL. -/
theorem C7_witness :
    normalize_sheet_id exampleUrl =
        Except.ok ⟨("ABC123/edit#gid=0".data).takeWhile (fun x => x != '/')⟩ ∧
    normalize_sheet_id exampleUrl = Except.ok "ABC123" ∧
    normalize_sheet_id "  RAWID  " = Except.ok ⟨pyStrip ("  RAWID  ").data⟩ ∧
    normalize_sheet_id "http://nope" = Except.error
      "Provided URL does not look like a Google Sheets URL with /d/<id>/" := by
  refine ⟨?_, by decide, ?_, ?_⟩
  · exact (((C7_normalize_sheet_id exampleUrl).2.1
      ("https://docs.google.com/spreadsheets".data, "ABC123/edit#gid=0".data)
      (by decide) (by decide)).1)
  · exact (C7_normalize_sheet_id "  RAWID  ").1 (by decide)
  · exact (C7_normalize_sheet_id "http://nope").2.2 (by decide) (by decide)

example : pyStripStr "  Year " = "Year" := by decide
example : parseNumeric? "2023" = some 2023 := by decide
example : parseNumeric? "bad" = none := by decide
example :
    coerce_and_align ⟨[" Year ", "Week", "Name"],
      [[.str "2023", .str "bad", .str "X"]]⟩ =
    ⟨["Year", "Week", "Name"], [[.num 2023, .null, .str "X"]]⟩ := by decide
example : pySplit "https://x.com/spreadsheets/d/ABC123/edit" "/d/" =
    ["https://x.com/spreadsheets", "ABC123/edit"] := by decide
example : containsStr "operation not supported for this document type" "not supported for this document" = true := by decide

/-- **C2.** For every data frame and list of included columns all
present in the frame (with well-formed rows), `compute_row_hash`
succeeds and maps each record to the lowercase-hex SHA-256 digest of
the UTF-8 encoding of the record's included-column values rendered as
strings (empty string for null) joined by a double pipe in the given
column order (`specFingerprint`); consequently any two records with
identical included-column values receive identical fingerprints. -/
theorem C2_compute_row_hash (df : Frame) (cols : List String)
    (hc : ∀ c ∈ cols, c ∈ df.cols)
    (hlen : ∀ r ∈ df.rows, df.cols.length ≤ r.length) :
    compute_row_hash df cols =
      some (df.rows.map (fun r => specFingerprint (cols.map (valueAt df.cols r)))) ∧
    (∀ r1 ∈ df.rows, ∀ r2 ∈ df.rows,
      cols.map (valueAt df.cols r1) = cols.map (valueAt df.cols r2) →
      rowHash df.cols cols r1 = rowHash df.cols cols r2) := by
  constructor
  · exact optMap_eq_some (fun r hr => rowHash_eq hc (hlen r hr))
  · intro r1 h1 r2 h2 heq
    rw [rowHash_eq hc (hlen r1 h1), rowHash_eq hc (hlen r2 h2), heq]

set_option maxRecDepth 40000 in
/-- Witness for C2 on a concrete two-row frame, including the digest
computed by the embedded SHA-256 on `A||2023` (cross-checked against
`hashlib.sha256`): identical rows receive the identical fingerprint. -/
theorem C2_witness :
    (∀ c ∈ ["Name", "Year"], c ∈ dfHash.cols) ∧
    (∀ r ∈ dfHash.rows, dfHash.cols.length ≤ r.length) ∧
    compute_row_hash dfHash ["Name", "Year"] =
      some (dfHash.rows.map
        (fun r => specFingerprint (["Name", "Year"].map (valueAt dfHash.cols r)))) ∧
    compute_row_hash dfHash ["Name", "Year"] = some [digest1, digest1] := by
  refine ⟨by decide, by decide, ?_, by decide⟩
  exact (C2_compute_row_hash dfHash ["Name", "Year"] (by decide) (by decide)).1

/-- **C3 counterexample.** Normalizing the spec's own example input
columns `[Team, Name, Unmapped, Year]` leaves them in that order; they
do not normalize to `[Name, Year, Team, Unmapped]` as the claim
states. -/
theorem C3_counterexample :
    (coerce_and_align ⟨["Team", "Name", "Unmapped", "Year"],
        [[.str "a", .str "b", .str "c", .str "2020"]]⟩).cols =
      ["Team", "Name", "Unmapped", "Year"] ∧
    (coerce_and_align ⟨["Team", "Name", "Unmapped", "Year"],
        [[.str "a", .str "b", .str "c", .str "2020"]]⟩).cols ≠
      ["Name", "Year", "Team", "Unmapped"] := by
  exact ⟨by decide, by decide⟩

/-- **C3 (amended).** Normalization does not reorder columns at all:
the normalized column list is the original list with each name
whitespace-trimmed, in the original relative order (in particular it
has the same length and no schema-first permutation is applied). -/
theorem C3_no_reorder (f : Frame) :
    (coerce_and_align f).cols = f.cols.map pyStripStr ∧
    (coerce_and_align f).cols.length = f.cols.length := by
  exact ⟨rfl, by rw [coerce_and_align_cols, List.length_map]⟩

/-- **C4.** Normalization trims surrounding whitespace from every
column name, and a cell is numerically coerced exactly when its
(trimmed) column name is `Year` or `Week`; coercion of a non-numeric
string yields null and never an error (the coercion is a total
function); the spec's worked example normalizes as stated. -/
theorem C4_trim_and_coerce (f : Frame) :
    (coerce_and_align f).cols = f.cols.map pyStripStr ∧
    (∀ k j : Nat,
      ((coerce_and_align f).rows.getD k []).getD j Value.null =
        if j < (f.rows.getD k []).length ∧
            ((f.cols.map pyStripStr).getD j "" = "Year" ∨
              (f.cols.map pyStripStr).getD j "" = "Week") then
          toNumericCoerce ((f.rows.getD k []).getD j Value.null)
        else (f.rows.getD k []).getD j Value.null) ∧
    (∀ s : String, parseNumeric? s = none →
      toNumericCoerce (Value.str s) = Value.null) ∧
    coerce_and_align ⟨[" Year ", "Week", "Name"],
        [[.str "2023", .str "bad", .str "X"]]⟩ =
      ⟨["Year", "Week", "Name"], [[.num 2023, .null, .str "X"]]⟩ := by
  refine ⟨rfl, coerce_cell f, ?_, by decide⟩
  intro s hs
  simp [toNumericCoerce, hs]

/-- Witness for C4: the non-numeric value `"bad"` is coerced to null. -/
theorem C4_witness :
    parseNumeric? "bad" = none ∧
    toNumericCoerce (Value.str "bad") = Value.null :=
  ⟨by decide, (C4_trim_and_coerce ⟨[], []⟩).2.2.1 "bad" (by decide)⟩

/-- **C5.** The missing-value sentinel is the distinguished `Value.null`,
distinct from the empty string; `pd.isna` recognizes exactly it; coercion
failures produce it (not an empty string); normalization maps null cells
to null cells; and the batch handed to the sink is exactly the
normalized frame, so hashing (`compute_row_hash`, whose null test is
`isna`) and sink writing observe this single null representation. -/
theorem C5_null_repr (cfg : Config) (ts : String) (gs : Except FetchErr Frame)
    (dr cv b : Frame) (sid : String)
    (hf : falsy cfg.gsheetId = false)
    (hn : normalize_sheet_id (cfg.gsheetId.getD "") = Except.ok sid)
    (hfe : fetchPhase cfg gs dr cv = Except.ok b)
    (hne : (b.rows.isEmpty || b.cols.isEmpty) = false) :
    Value.null ≠ Value.str "" ∧
    (∀ v, isna v = true ↔ v = Value.null) ∧
    (∀ s, parseNumeric? s = none → toNumericCoerce (Value.str s) = Value.null) ∧
    (∀ k j, (b.rows.getD k []).getD j Value.null = Value.null →
      ((coerce_and_align b).rows.getD k []).getD j Value.null = Value.null) ∧
    sinkFrame? (runMain cfg ts gs dr cv) = some (coerce_and_align b) := by
  refine ⟨by decide, ?_, ?_, ?_, ?_⟩
  · intro v
    cases v <;> simp [isna]
  · intro s hs
    simp [toNumericCoerce, hs]
  · intro k j h
    rw [coerce_cell, h]
    split <;> rfl
  · rw [runMain_sink hf hn hfe hne]
    cases hdb : (falsy cfg.mysqlHost || falsy cfg.mysqlUser || falsy cfg.mysqlDb) <;>
      simp [sinkFrame?]

/-- Witness for C5 on a concrete run. -/
theorem C5_witness :
    falsy cfg1.gsheetId = false ∧
    sinkFrame? (runMain cfg1 ts1 (Except.ok b1) b1 b1) =
      some (coerce_and_align b1) :=
  ⟨by decide,
    (C5_null_repr cfg1 ts1 (Except.ok b1) b1 b1 b1 "SHEET1"
      (by decide) (by decide) (by decide) (by decide)).2.2.2.2⟩

/-- **C6.** A run whose source fetch returns a zero-record batch
short-circuits: `main` returns the empty outcome — neither sink is
reached, nothing is hashed or written — and the process exit status
is 0. -/
theorem C6_empty_short_circuit (cfg : Config) (ts : String)
    (gs : Except FetchErr Frame) (dr cv b : Frame) (sid : String)
    (hf : falsy cfg.gsheetId = false)
    (hn : normalize_sheet_id (cfg.gsheetId.getD "") = Except.ok sid)
    (hfe : fetchPhase cfg gs dr cv = Except.ok b)
    (hrows : b.rows = []) :
    runMain cfg ts gs dr cv = RunResult.emptyReturn ∧
    exitStatus (runMain cfg ts gs dr cv) = 0 ∧
    (∀ p csv d, runMain cfg ts gs dr cv ≠ RunResult.fileSaved p csv d) ∧
    (∀ t d, runMain cfg ts gs dr cv ≠ RunResult.dbLoaded t d) := by
  have h1 : runMain cfg ts gs dr cv = RunResult.emptyReturn := by
    simp [runMain, hf, hn, hfe, hrows]
  refine ⟨h1, by rw [h1]; rfl, ?_, ?_⟩
  · intro p csv d hcontra
    rw [h1] at hcontra
    exact RunResult.noConfusion hcontra
  · intro t d hcontra
    rw [h1] at hcontra
    exact RunResult.noConfusion hcontra

/-- Witness for C6 on a concrete empty batch. -/
theorem C6_witness :
    b0.rows = [] ∧
    runMain cfg1 ts1 (Except.ok b0) b0 b0 = RunResult.emptyReturn :=
  ⟨rfl,
    (C6_empty_short_circuit cfg1 ts1 (Except.ok b0) b0 b0 b0 "SHEET1"
      (by decide) (by decide) (by decide) rfl).1⟩

/-- **C1 counterexample.** On a run with a non-empty two-column source
batch, the frame handed to the sink is exactly the normalized source
frame: it still has exactly the two source columns `Name` and `Year`
and carries no appended fingerprint field — `main` never invokes
`compute_row_hash` (which `etl/utilis.py` defines but `main` does not
even import). -/
theorem C1_counterexample :
    sinkFrame? (runMain cfg1 ts1 (Except.ok b1) b1 b1) =
      some ⟨["Name", "Year"], [[Value.str "A", Value.num 2023]]⟩ ∧
    (sinkFrame? (runMain cfg1 ts1 (Except.ok b1) b1 b1)).map
        (fun fr => fr.cols.length) = some b1.cols.length := by
  exact ⟨by decide, by decide⟩

/-- **C1 (amended).** On every run whose source batch is non-empty, the
orchestrator hands the Sink Writer exactly the normalized batch, with
no Content Hasher invocation in between: the sink frame's columns are
exactly the trimmed source columns (no fingerprint field is appended)
and its record count equals the source record count. -/
theorem C1_no_hasher (cfg : Config) (ts : String) (gs : Except FetchErr Frame)
    (dr cv b : Frame) (sid : String)
    (hf : falsy cfg.gsheetId = false)
    (hn : normalize_sheet_id (cfg.gsheetId.getD "") = Except.ok sid)
    (hfe : fetchPhase cfg gs dr cv = Except.ok b)
    (hne : (b.rows.isEmpty || b.cols.isEmpty) = false) :
    sinkFrame? (runMain cfg ts gs dr cv) = some (coerce_and_align b) ∧
    (coerce_and_align b).cols = b.cols.map pyStripStr ∧
    (coerce_and_align b).rows.length = b.rows.length := by
  refine ⟨?_, rfl, coerce_and_align_rows_length b⟩
  rw [runMain_sink hf hn hfe hne]
  cases hdb : (falsy cfg.mysqlHost || falsy cfg.mysqlUser || falsy cfg.mysqlDb) <;>
    simp [sinkFrame?]

/-- Witness for the amended C1 on a concrete run. -/
theorem C1_witness :
    falsy cfg1.gsheetId = false ∧
    sinkFrame? (runMain cfg1 ts1 (Except.ok b1) b1 b1) =
      some (coerce_and_align b1) :=
  ⟨by decide,
    (C1_no_hasher cfg1 ts1 (Except.ok b1) b1 b1 b1 "SHEET1"
      (by decide) (by decide) (by decide) (by decide)).1⟩

/-- **C8.** In the authenticated path, a failing native fetch falls
back to the Drive binary download (the run proceeds exactly as if the
drive-downloaded batch had been fetched) if and only if the error is an
`APIError` whose message contains `"not supported for this document"`;
any other fetch error terminates the run as an uncaught failure with
nonzero exit status. -/
theorem C8_fallback (cfg : Config) (ts : String) (e : FetchErr)
    (dr cv : Frame) (hcreds : ¬ cfg.googleCreds = "") :
    ((e.isAPIError && containsStr e.msg "not supported for this document") = true →
      runMain cfg ts (Except.error e) dr cv = runMain cfg ts (Except.ok dr) dr cv) ∧
    ((e.isAPIError && containsStr e.msg "not supported for this document") = false →
      ∀ sid : String, falsy cfg.gsheetId = false →
      normalize_sheet_id (cfg.gsheetId.getD "") = Except.ok sid →
      runMain cfg ts (Except.error e) dr cv = RunResult.fetchFailure e ∧
        exitStatus (RunResult.fetchFailure e) = 1) := by
  constructor
  · intro hcond
    have hfe1 : fetchPhase cfg (Except.error e) dr cv = Except.ok dr := by
      simp [fetchPhase, hcreds, hcond]
    have hfe2 : fetchPhase cfg (Except.ok dr) dr cv = Except.ok dr := by
      simp [fetchPhase, hcreds]
    simp only [runMain, hfe1, hfe2]
  · intro hcond sid hf hn
    have hfe1 : fetchPhase cfg (Except.error e) dr cv = Except.error e := by
      simp [fetchPhase, hcreds, hcond]
    refine ⟨?_, rfl⟩
    simp [runMain, hf, hn, hfe1]

/-- Witness for C8: the unsupported-document `APIError` falls back, the
not-found `APIError` propagates. -/
theorem C8_witness :
    runMain cfg8 ts1 (Except.error errUnsupported) b1 b1 =
      runMain cfg8 ts1 (Except.ok b1) b1 b1 ∧
    runMain cfg8 ts1 (Except.error errNotFound) b1 b1 =
      RunResult.fetchFailure errNotFound := by
  constructor
  · exact (C8_fallback cfg8 ts1 errUnsupported b1 b1 (by decide)).1 (by decide)
  · exact ((C8_fallback cfg8 ts1 errNotFound b1 b1 (by decide)).2 (by decide)
      "SHEET1" (by decide) (by decide)).1

/-- **C9.** On a run with no complete database configuration and a
non-empty batch, `main` writes exactly one CSV file at
`data/raw/<timestamp>_cauldron_backend.csv` whose content is one header
record in normalized column order followed by exactly one record per
source record, and the database sink is never touched. -/
theorem C9_file_sink (cfg : Config) (ts : String) (gs : Except FetchErr Frame)
    (dr cv b : Frame) (sid : String)
    (hf : falsy cfg.gsheetId = false)
    (hn : normalize_sheet_id (cfg.gsheetId.getD "") = Except.ok sid)
    (hfe : fetchPhase cfg gs dr cv = Except.ok b)
    (hne : (b.rows.isEmpty || b.cols.isEmpty) = false)
    (hdb : (falsy cfg.mysqlHost || falsy cfg.mysqlUser || falsy cfg.mysqlDb) = true) :
    runMain cfg ts gs dr cv =
      RunResult.fileSaved ("data/raw/" ++ (ts ++ "_cauldron_backend.csv"))
        (toCsv (coerce_and_align b)) (coerce_and_align b) ∧
    (toCsv (coerce_and_align b)).length = 1 + b.rows.length ∧
    (toCsv (coerce_and_align b)).headD "" =
      String.intercalate "," ((coerce_and_align b).cols.map csvField) ∧
    (∀ t d, runMain cfg ts gs dr cv ≠ RunResult.dbLoaded t d) := by
  have h1 : runMain cfg ts gs dr cv =
      RunResult.fileSaved ("data/raw/" ++ (ts ++ "_cauldron_backend.csv"))
        (toCsv (coerce_and_align b)) (coerce_and_align b) := by
    rw [runMain_sink hf hn hfe hne]
    simp [hdb, write_extract]
  refine ⟨h1, ?_, rfl, ?_⟩
  · simp only [toCsv, List.length_cons, List.length_map]
    rw [coerce_and_align_rows_length]
    omega
  · intro t d hcontra
    rw [h1] at hcontra
    exact RunResult.noConfusion hcontra

/-- Witness for C9 on a concrete databaseless run. -/
theorem C9_witness :
    (falsy cfg1.mysqlHost || falsy cfg1.mysqlUser || falsy cfg1.mysqlDb) = true ∧
    runMain cfg1 ts1 (Except.ok b1) b1 b1 =
      RunResult.fileSaved ("data/raw/" ++ (ts1 ++ "_cauldron_backend.csv"))
        (toCsv (coerce_and_align b1)) (coerce_and_align b1) :=
  ⟨by decide,
    (C9_file_sink cfg1 ts1 (Except.ok b1) b1 b1 b1 "SHEET1"
      (by decide) (by decide) (by decide) (by decide) (by decide)).1⟩

/-- **C10 counterexample.** With `MYSQL_HOST` set to the empty string
(so set, not unset) and user and database name set non-empty, the run
takes file mode — refuting the claim that file mode is taken only when
one of the three is unset. -/
theorem C10_counterexample :
    isFileMode (runMain cfg10 ts1 (Except.ok b1) b1 b1) = true ∧
    cfg10.mysqlHost ≠ none ∧
    cfg10.mysqlUser ≠ none ∧
    cfg10.mysqlDb ≠ none ∧
    cfg10.mysqlPassword = none := by
  exact ⟨by decide, by decide, by decide, by decide, by decide⟩

/-- **C10 (amended).** Sink-mode selection tests only the truthiness of
host, user, and database name, never the password: file mode is taken
exactly when at least one of the three is unset or empty, database mode
is attempted whenever all three are non-empty (even with the password
absent), and changing the password configuration cannot change the
selected mode. -/
theorem C10_selection (cfg : Config) (ts : String) (gs : Except FetchErr Frame)
    (dr cv b : Frame) (sid : String)
    (hf : falsy cfg.gsheetId = false)
    (hn : normalize_sheet_id (cfg.gsheetId.getD "") = Except.ok sid)
    (hfe : fetchPhase cfg gs dr cv = Except.ok b)
    (hne : (b.rows.isEmpty || b.cols.isEmpty) = false) :
    (isFileMode (runMain cfg ts gs dr cv) =
      (falsy cfg.mysqlHost || falsy cfg.mysqlUser || falsy cfg.mysqlDb)) ∧
    (∀ pw, isFileMode (runMain { cfg with mysqlPassword := pw } ts gs dr cv) =
      isFileMode (runMain cfg ts gs dr cv)) ∧
    ((falsy cfg.mysqlHost || falsy cfg.mysqlUser || falsy cfg.mysqlDb) = false →
      runMain cfg ts gs dr cv = RunResult.dbLoaded cfg.rawTable (coerce_and_align b)) := by
  refine ⟨?_, fun pw => rfl, ?_⟩
  · rw [runMain_sink hf hn hfe hne]
    cases hdb : (falsy cfg.mysqlHost || falsy cfg.mysqlUser || falsy cfg.mysqlDb) <;>
      simp [isFileMode]
  · intro hdb
    rw [runMain_sink hf hn hfe hne]
    simp [hdb]

/-- Witness for the amended C10 on the empty-host configuration. -/
theorem C10_witness :
    (falsy cfg10.mysqlHost || falsy cfg10.mysqlUser || falsy cfg10.mysqlDb) = true ∧
    isFileMode (runMain cfg10 ts1 (Except.ok b1) b1 b1) =
      (falsy cfg10.mysqlHost || falsy cfg10.mysqlUser || falsy cfg10.mysqlDb) :=
  ⟨by decide,
    (C10_selection cfg10 ts1 (Except.ok b1) b1 b1 b1 "SHEET1"
      (by decide) (by decide) (by decide) (by decide)).1⟩

set_option maxRecDepth 40000 in
example : sha256hex "abc" =
    "ba7816bf8f01cfea414140de5dae2223b00361a396177a9cb410ff61f20015ad" := by
  decide

set_option maxRecDepth 40000 in
example : sha256hex "" =
    "e3b0c44298fc1c149afbf4c8996fb92427ae41e4649b934ca495991b7852b855" := by
  decide
